import Mathlib

/-!
Shallow embedding of the contract revision validation core of `rhp/contracts.go`
(package `rhp` of the hostd repository), together with theorems checking the
natural-language specification against it.

Modelling conventions:
* `types.Currency` (external `go.sia.tech/core` library, not under the sources)
  is a 128-bit unsigned integer.  It is modelled as `Nat`; its checked
  operations detect the 128-bit range.  `Add`/`Sub` abort the program on
  overflow/underflow (they never wrap silently); `SubWithUnderflow` returns the
  truncated difference together with an underflow flag.
* Go run-time aborts (slice index out of range, currency overflow/underflow
  inside `Add`/`Sub`) are modelled by the explicit `Outcome.crash` result, kept
  distinct from the typed errors the validators return.
* `types.Hash256`, `types.Address` and `types.UnlockKey` are only ever compared
  for equality here, so they are modelled as `Nat`; the zero hash and the void
  address are `0`.  The unlock-conditions hash of the external library is an
  unspecified deterministic function, passed as a parameter `uh`.
* `uint64` fields (heights, revision numbers) are naturals; where the Go code
  performs `uint64` arithmetic the embedding reduces modulo `2 ^ 64`.
-/

namespace Hostd

/-- One above the largest representable value of the 128-bit currency type. -/
def currencyBound : Nat := 2 ^ 128

/-- `types.MaxRevisionNumber` (`math.MaxUint64`). -/
def maxRevisionNumber : Nat := 2 ^ 64 - 1

/-- `uint64` addition (used by the Go code for height arithmetic, which wraps). -/
def u64add (a b : Nat) : Nat := (a + b) % 2 ^ 64

/-- Modelled from the spec: checked addition of the external wide currency type
(`types.Currency.Add`, whose implementation is not under the sources).  A sum
past the 128-bit range is not representable; the operation reports it (`none`)
instead of wrapping, and the caller aborts. -/
def cadd (a b : Nat) : Option Nat :=
  if a + b < currencyBound then some (a + b) else none

/-- Modelled from the spec: checked subtraction of the external wide currency
type (`types.Currency.Sub`); an underflow is reported (`none`) instead of
wrapping, and the caller aborts. -/
def csub (a b : Nat) : Option Nat :=
  if b ≤ a then some (a - b) else none

/-- Modelled from the spec: `types.Currency.SubWithUnderflow`, returning the
(truncated) difference together with the underflow flag. -/
def subWithUnderflow (a b : Nat) : Nat × Bool :=
  (a - b, decide (a < b))

/-- `types.SiacoinOutput`: an address/value pair. -/
structure SiacoinOutput where
  address : Nat
  value : Nat
deriving DecidableEq

/-- `types.UnlockKey`, modelled by an identifier. -/
structure UnlockKey where
  key : Nat
deriving DecidableEq

/-- `types.UnlockConditions`: public keys plus required signature count. -/
structure UnlockConditions where
  publicKeys : List UnlockKey
  signaturesRequired : Nat
deriving DecidableEq

/-- `types.FileContract`. -/
structure FileContract where
  filesize : Nat
  fileMerkleRoot : Nat
  windowStart : Nat
  windowEnd : Nat
  validProofOutputs : List SiacoinOutput
  missedProofOutputs : List SiacoinOutput
  unlockHash : Nat
  revisionNumber : Nat
deriving DecidableEq

/-- `types.FileContractRevision`: a file contract plus parent id and unlock
conditions (the Go struct embeds `FileContract`). -/
structure FileContractRevision where
  parentID : Nat
  unlockConditions : UnlockConditions
  fileContract : FileContract
deriving DecidableEq

/-- `rhpv2.HostSettings`, restricted to the fields the validators read. -/
structure HostSettings where
  address : Nat
  contractPrice : Nat
  maxCollateral : Nat
  windowSize : Nat
  maxDuration : Nat
deriving DecidableEq

/-- `types.VoidAddress` (the all-zero address). -/
def voidAddress : Nat := 0

/-- Kinds of Go run-time aborts the translated code can hit. -/
inductive CrashKind
  | indexOutOfRange
  | currencyOverflow
  | currencyUnderflow
deriving DecidableEq

/-- The typed errors returned by the validators and constructors, one
constructor per `errors.New`/`fmt.Errorf` return in `rhp/contracts.go`. -/
inductive VErr
  | validOutputAddressChanged
  | missedOutputAddressChanged
  | validSumChanged
  | missedSumChanged
  | unlockHashChanged
  | unlockConditionsChanged
  | revisionNumberNotIncreased
  | windowStartChanged
  | windowEndChanged
  | validOutputCountChanged
  | missedOutputCountChanged
  | renterValidIncreased
  | renterMissedIncreased
  | renterPayoutsUnequal
  | incorrectOutputCount
  | revisionNumberTooLow
  | contractLocked
  | initialFilesizeNonzero
  | initialRevisionNumberNonzero
  | initialMerkleRootNonzero
  | windowStartTooSoon
  | durationTooLong
  | proofWindowTooSmall
  | wrongValidOutputCount
  | wrongMissedOutputCount
  | wrongHostValidAddress
  | wrongHostMissedAddress
  | wrongVoidAddress
  | voidValueNonzero
  | hostPayoutTooSmall
  | hostPayoutsUnequal
  | excessiveInitialCollateral
  | incorrectUnlockHash
  | renewalRevisionNumberNonzero
  | renewalFilesizeChanged
  | renewalMerkleRootChanged
  | renewalWindowShortened
  | renewalHostAddressWrong
  | renewalVoidAddressWrong
  | renewalHostPayoutUnderflow
  | excessiveHostBurn
  | riskedCollateralNotVoid
  | validHostBelowBaseRevenue
  | collateralExceedsMax
  | clearingFilesizeNonzero
  | clearingMerkleRootNonzero
  | clearingWindowStartChanged
  | clearingWindowEndChanged
  | clearingOutputCountMismatch
  | clearingRevisionNumberNotMax
  | clearingUnlockHashChanged
  | clearingUnlockConditionsChanged
  | clearingValidValueChanged
  | clearingValidAddressChanged
  | clearingMissedValueMismatch
  | clearingMissedAddressMismatch
  | renterValidBelowPayment
  | renterMissedBelowPayment
  | hostMissedBelowCollateral
  | renterValidMustDecrease
  | hostValidMustIncrease
  | hostMissedMustDecrease
  | transferMismatch
  | insufficientHostTransfer
  | excessiveCollateralTransfer
  | voidOutputMustIncrease
  | burnValueMismatch
  | renterValidChanged
  | hostValidChanged
  | renterMissedChanged
  | renterValidNotReduced
  | renterMissedNotReduced
  | hostValidNotIncreased
  | hostMissedNotIncreased
deriving DecidableEq

/-- Result of running a translated Go function: a value, a returned typed
error, or a run-time abort. -/
inductive Outcome (α : Type)
  | ok (a : α)
  | err (e : VErr)
  | crash (k : CrashKind)
deriving DecidableEq

namespace FileContract

/-- `fc.ValidProofOutputs[0].Value` (`ValidRenterPayout`); `none` models the
out-of-range abort. -/
def validRenterPayout? (fc : FileContract) : Option Nat :=
  (fc.validProofOutputs.get? 0).map SiacoinOutput.value

/-- `fc.ValidProofOutputs[1].Value` (`ValidHostPayout`). -/
def validHostPayout? (fc : FileContract) : Option Nat :=
  (fc.validProofOutputs.get? 1).map SiacoinOutput.value

/-- `fc.MissedProofOutputs[0].Value` (`MissedRenterPayout`). -/
def missedRenterPayout? (fc : FileContract) : Option Nat :=
  (fc.missedProofOutputs.get? 0).map SiacoinOutput.value

/-- `fc.MissedProofOutputs[1].Value` (`MissedHostPayout`). -/
def missedHostPayout? (fc : FileContract) : Option Nat :=
  (fc.missedProofOutputs.get? 1).map SiacoinOutput.value

end FileContract

namespace FileContractRevision

/-- Field promotion of the embedded `FileContract`. -/
def validProofOutputs (r : FileContractRevision) : List SiacoinOutput :=
  r.fileContract.validProofOutputs

/-- Field promotion of the embedded `FileContract`. -/
def missedProofOutputs (r : FileContractRevision) : List SiacoinOutput :=
  r.fileContract.missedProofOutputs

/-- Field promotion of the embedded `FileContract`. -/
def unlockHash (r : FileContractRevision) : Nat := r.fileContract.unlockHash

/-- Field promotion of the embedded `FileContract`. -/
def revisionNumber (r : FileContractRevision) : Nat :=
  r.fileContract.revisionNumber

/-- Field promotion of the embedded `FileContract`. -/
def windowStart (r : FileContractRevision) : Nat := r.fileContract.windowStart

/-- Field promotion of the embedded `FileContract`. -/
def windowEnd (r : FileContractRevision) : Nat := r.fileContract.windowEnd

/-- Field promotion of the embedded `FileContract`. -/
def filesize (r : FileContractRevision) : Nat := r.fileContract.filesize

/-- Field promotion of the embedded `FileContract`. -/
def fileMerkleRoot (r : FileContractRevision) : Nat :=
  r.fileContract.fileMerkleRoot

/-- `rev.ValidRenterPayout()` on a revision. -/
def validRenterPayout? (r : FileContractRevision) : Option Nat :=
  r.fileContract.validRenterPayout?

/-- `rev.ValidHostPayout()` on a revision. -/
def validHostPayout? (r : FileContractRevision) : Option Nat :=
  r.fileContract.validHostPayout?

/-- `rev.MissedRenterPayout()` on a revision. -/
def missedRenterPayout? (r : FileContractRevision) : Option Nat :=
  r.fileContract.missedRenterPayout?

/-- `rev.MissedHostPayout()` on a revision. -/
def missedHostPayout? (r : FileContractRevision) : Option Nat :=
  r.fileContract.missedHostPayout?

end FileContractRevision

/-- `contractUnlockConditions`: ordered key pair `[renterKey, hostKey]` with two
required signatures. -/
def contractUnlockConditions (hostKey renterKey : UnlockKey) : UnlockConditions :=
  { publicKeys := [renterKey, hostKey], signaturesRequired := 2 }

/-- The first loop of `validateStdRevision`: sum the current revision's valid
output values with the currency type's checked addition (which aborts on
overflow). -/
def sumCurrentOutputs : List SiacoinOutput → Nat → Outcome Nat
  | [], acc => .ok acc
  | o :: rest, acc =>
    match cadd acc o.value with
    | none => .crash .currencyOverflow
    | some acc2 => sumCurrentOutputs rest acc2

/-- The second and third loops of `validateStdRevision`: walk the proposed
revision's outputs, read the current revision's output at the same index (a Go
slice access that aborts when the current vector is shorter), reject on an
address change, and sum the proposed values with checked addition. -/
def sumRevisionOutputs (isValid : Bool) :
    List SiacoinOutput → List SiacoinOutput → Nat → Nat → Outcome Nat
  | [], _, _, acc => .ok acc
  | _ :: _, [], _, _ => .crash .indexOutOfRange
  | o :: rest, c :: crest, i, acc =>
    if o.address ≠ c.address then
      .err (if isValid then .validOutputAddressChanged
            else .missedOutputAddressChanged)
    else
      match cadd acc o.value with
      | none => .crash .currencyOverflow
      | some acc2 => sumRevisionOutputs isValid rest crest (i + 1) acc2

/-- The final three cases of `validateStdRevision`'s switch: the renter payout
comparisons.  The four accessor reads are Go calls of `ValidRenterPayout` /
`MissedRenterPayout`, which index the output slices at 0 and abort when a
vector is empty. -/
def renterChecks (rvp cvp rmp cmp : Option Nat) : Outcome Unit :=
  match rvp, cvp, rmp, cmp with
  | some rv, some cv, some rm, some cm =>
    if cv < rv then .err .renterValidIncreased
    else if cm < rm then .err .renterMissedIncreased
    else if rv ≠ rm then .err .renterPayoutsUnequal
    else .ok ()
  | _, _, _, _ => .crash .indexOutOfRange

/-- `validateStdRevision(current, revision)`: the shared structural predicate.
`uh` is the unlock-conditions hash of the external library. -/
def validateStdRevision (uh : UnlockConditions → Nat)
    (current revision : FileContractRevision) : Outcome Unit :=
  match sumCurrentOutputs current.validProofOutputs 0 with
  | .err e => .err e
  | .crash k => .crash k
  | .ok oldPayout =>
    match sumRevisionOutputs true revision.validProofOutputs
        current.validProofOutputs 0 0 with
    | .err e => .err e
    | .crash k => .crash k
    | .ok validPayout =>
      match sumRevisionOutputs false revision.missedProofOutputs
          current.missedProofOutputs 0 0 with
      | .err e => .err e
      | .crash k => .crash k
      | .ok missedPayout =>
        if validPayout ≠ oldPayout then .err .validSumChanged
        else if missedPayout ≠ oldPayout then .err .missedSumChanged
        else if revision.unlockHash ≠ current.unlockHash then
          .err .unlockHashChanged
        else if uh revision.unlockConditions ≠ uh current.unlockConditions then
          .err .unlockConditionsChanged
        else if revision.revisionNumber ≤ current.revisionNumber then
          .err .revisionNumberNotIncreased
        else if revision.windowStart ≠ current.windowStart then
          .err .windowStartChanged
        else if revision.windowEnd ≠ current.windowEnd then
          .err .windowEndChanged
        else if revision.validProofOutputs.length ≠
            current.validProofOutputs.length then
          .err .validOutputCountChanged
        else if revision.missedProofOutputs.length ≠
            current.missedProofOutputs.length then
          .err .missedOutputCountChanged
        else
          renterChecks revision.validRenterPayout? current.validRenterPayout?
            revision.missedRenterPayout? current.missedRenterPayout?

/-- The output-rebuilding loops of `Revise`: keep each old output's address,
replace its value. -/
def reviseOutputs (old : List SiacoinOutput) (vals : List Nat) :
    List SiacoinOutput :=
  List.zipWith (fun o v => { address := o.address, value := v }) old vals

/-- `Revise(revision, revisionNumber, validOutputs, missedOutputs)`. -/
def Revise (revision : FileContractRevision) (revisionNumber : Nat)
    (validOutputs missedOutputs : List Nat) : Outcome FileContractRevision :=
  if validOutputs.length ≠ revision.validProofOutputs.length ∨
      missedOutputs.length ≠ revision.missedProofOutputs.length then
    .err .incorrectOutputCount
  else if revisionNumber ≤ revision.revisionNumber then
    .err .revisionNumberTooLow
  else
    .ok { revision with
          fileContract := { revision.fileContract with
            revisionNumber := revisionNumber
            validProofOutputs :=
              reviseOutputs revision.fileContract.validProofOutputs validOutputs
            missedProofOutputs :=
              reviseOutputs revision.fileContract.missedProofOutputs
                missedOutputs } }

/-- `ValidateContractFormation(fc, hostKey, renterKey, currentHeight,
settings)`. -/
def ValidateContractFormation (uh : UnlockConditions → Nat) (fc : FileContract)
    (hostKey renterKey : UnlockKey) (currentHeight : Nat)
    (settings : HostSettings) : Outcome Nat :=
  if fc.filesize ≠ 0 then .err .initialFilesizeNonzero
  else if fc.revisionNumber ≠ 0 then .err .initialRevisionNumberNonzero
  else if fc.fileMerkleRoot ≠ 0 then .err .initialMerkleRootNonzero
  else if fc.windowStart < u64add currentHeight settings.windowSize then
    .err .windowStartTooSoon
  else if u64add currentHeight settings.maxDuration < fc.windowStart then
    .err .durationTooLong
  else if fc.windowEnd < u64add fc.windowStart settings.windowSize then
    .err .proofWindowTooSmall
  else if fc.validProofOutputs.length ≠ 2 then .err .wrongValidOutputCount
  else if fc.missedProofOutputs.length ≠ 3 then .err .wrongMissedOutputCount
  else
    match fc.validProofOutputs.get? 1, fc.missedProofOutputs.get? 1,
        fc.missedProofOutputs.get? 2 with
    | some vho, some mho, some voidO =>
      if vho.address ≠ settings.address then .err .wrongHostValidAddress
      else if mho.address ≠ settings.address then .err .wrongHostMissedAddress
      else if voidO.address ≠ voidAddress then .err .wrongVoidAddress
      else if voidO.value ≠ 0 then .err .voidValueNonzero
      else if vho.value < settings.contractPrice then .err .hostPayoutTooSmall
      else if vho.value ≠ mho.value then .err .hostPayoutsUnequal
      else if settings.maxCollateral < vho.value then
        .err .excessiveInitialCollateral
      else if fc.unlockHash ≠ uh (contractUnlockConditions hostKey renterKey)
          then .err .incorrectUnlockHash
      else
        match csub vho.value settings.contractPrice with
        | none => .crash .currencyUnderflow
        | some c => .ok c
    | _, _, _ => .crash .indexOutOfRange

/-- `ValidateContractRenewal(existing, renewal, hostKey, renterKey,
baseHostRevenue, baseRiskedCollateral, currentHeight, settings)`, returning
`(storageRevenue, riskedCollateral, lockedCollateral)`. -/
def ValidateContractRenewal (existing : FileContractRevision)
    (renewal : FileContract) (hostKey renterKey : UnlockKey)
    (baseHostRevenue baseRiskedCollateral : Nat) (currentHeight : Nat)
    (settings : HostSettings) : Outcome (Nat × Nat × Nat) :=
  if renewal.revisionNumber ≠ 0 then .err .renewalRevisionNumberNonzero
  else if renewal.filesize ≠ existing.filesize then
    .err .renewalFilesizeChanged
  else if renewal.fileMerkleRoot ≠ existing.fileMerkleRoot then
    .err .renewalMerkleRootChanged
  else if renewal.windowEnd < existing.windowEnd then
    .err .renewalWindowShortened
  else if renewal.windowStart < u64add currentHeight settings.windowSize then
    .err .windowStartTooSoon
  else if u64add currentHeight settings.maxDuration < renewal.windowStart then
    .err .durationTooLong
  else if renewal.windowEnd < u64add renewal.windowStart settings.windowSize
      then .err .proofWindowTooSmall
  else if renewal.validProofOutputs.length ≠ 2 then
    .err .wrongValidOutputCount
  else if renewal.missedProofOutputs.length ≠ 3 then
    .err .wrongMissedOutputCount
  else
    match renewal.validProofOutputs.get? 1, renewal.missedProofOutputs.get? 1,
        renewal.missedProofOutputs.get? 2 with
    | some vho, some mho, some voidO =>
      if vho.address ≠ settings.address then .err .renewalHostAddressWrong
      else if voidO.address ≠ voidAddress then .err .renewalVoidAddressWrong
      else
        match cadd baseHostRevenue baseRiskedCollateral with
        | none => .crash .currencyOverflow
        | some expectedBurn =>
          let hb := subWithUnderflow vho.value mho.value
          if hb.2 then .err .renewalHostPayoutUnderflow
          else if expectedBurn < hb.1 then .err .excessiveHostBurn
          else if voidO.value ≠ hb.1 then .err .riskedCollateralNotVoid
          else
            let riskedCollateral := (subWithUnderflow hb.1 baseHostRevenue).1
            let lw := subWithUnderflow vho.value baseHostRevenue
            if lw.2 then .err .validHostBelowBaseRevenue
            else if settings.maxCollateral < lw.1 then
              .err .collateralExceedsMax
            else .ok (baseHostRevenue, riskedCollateral, lw.1)
    | _, _, _ => .crash .indexOutOfRange

/-- The per-index loop of `ValidateClearingRevision`, walking the final
revision's valid outputs; the read of the current revision's output at the same
index is a Go slice access that aborts when the current vector is shorter. -/
def clearingOutputsCheck :
    List SiacoinOutput → List SiacoinOutput → List SiacoinOutput → Outcome Unit
  | [], _, _ => .ok ()
  | _ :: _, [], _ => .crash .indexOutOfRange
  | _ :: _, _ :: _, [] => .crash .indexOutOfRange
  | fv :: fvs, cv :: cvs, fm :: fms =>
    if fv.value ≠ cv.value then .err .clearingValidValueChanged
    else if fv.address ≠ cv.address then .err .clearingValidAddressChanged
    else if fv.value ≠ fm.value then .err .clearingMissedValueMismatch
    else if fv.address ≠ fm.address then .err .clearingMissedAddressMismatch
    else clearingOutputsCheck fvs cvs fms

/-- `ValidateClearingRevision(current, final)`. -/
def ValidateClearingRevision (uh : UnlockConditions → Nat)
    (current final : FileContractRevision) : Outcome Unit :=
  if final.filesize ≠ 0 then .err .clearingFilesizeNonzero
  else if final.fileMerkleRoot ≠ 0 then .err .clearingMerkleRootNonzero
  else if current.windowStart ≠ final.windowStart then
    .err .clearingWindowStartChanged
  else if current.windowEnd ≠ final.windowEnd then
    .err .clearingWindowEndChanged
  else if final.validProofOutputs.length ≠ final.missedProofOutputs.length then
    .err .clearingOutputCountMismatch
  else if final.revisionNumber ≠ maxRevisionNumber then
    .err .clearingRevisionNumberNotMax
  else if final.unlockHash ≠ current.unlockHash then
    .err .clearingUnlockHashChanged
  else if uh final.unlockConditions ≠ uh current.unlockConditions then
    .err .clearingUnlockConditionsChanged
  else
    clearingOutputsCheck final.validProofOutputs current.validProofOutputs
      final.missedProofOutputs

/-- `ValidateRevision(current, revision, payment, collateral)`, returning
`(transfer, burn)`. -/
def ValidateRevision (uh : UnlockConditions → Nat)
    (current revision : FileContractRevision) (payment collateral : Nat) :
    Outcome (Nat × Nat) :=
  match validateStdRevision uh current revision with
  | .err e => .err e
  | .crash k => .crash k
  | .ok _ =>
    match current.validRenterPayout? with
    | none => .crash .indexOutOfRange
    | some cvr =>
      if cvr < payment then .err .renterValidBelowPayment
      else
        match current.missedRenterPayout? with
        | none => .crash .indexOutOfRange
        | some cmr =>
          if cmr < payment then .err .renterMissedBelowPayment
          else
            match current.missedHostPayout? with
            | none => .crash .indexOutOfRange
            | some cmh =>
              if cmh < collateral then .err .hostMissedBelowCollateral
              else
                match revision.validRenterPayout? with
                | none => .crash .indexOutOfRange
                | some rvr =>
                  let fr := subWithUnderflow cvr rvr
                  if fr.2 then .err .renterValidMustDecrease
                  else
                    match revision.validHostPayout?,
                        current.validHostPayout? with
                    | some rvh, some cvh =>
                      let th := subWithUnderflow rvh cvh
                      if th.2 then .err .hostValidMustIncrease
                      else
                        match revision.missedHostPayout? with
                        | none => .crash .indexOutOfRange
                        | some rmh =>
                          let hb := subWithUnderflow cmh rmh
                          if hb.2 then .err .hostMissedMustDecrease
                          else if fr.1 ≠ th.1 then .err .transferMismatch
                          else if th.1 < payment then
                            .err .insufficientHostTransfer
                          else if collateral < hb.1 then
                            .err .excessiveCollateralTransfer
                          else .ok (th.1, hb.1)
                    | _, _ => .crash .indexOutOfRange

/-- `ValidateProgramRevision(current, revision, storage, collateral)`,
returning the burn amount. -/
def ValidateProgramRevision (uh : UnlockConditions → Nat)
    (current revision : FileContractRevision) (storage collateral : Nat) :
    Outcome Nat :=
  match validateStdRevision uh current revision with
  | .err e => .err e
  | .crash k => .crash k
  | .ok _ =>
    match current.missedHostPayout?, revision.missedHostPayout? with
    | some cmh, some rmh =>
      let hb := subWithUnderflow cmh rmh
      if hb.2 then .err .hostMissedMustDecrease
      else
        match cadd storage collateral with
        | none => .crash .currencyOverflow
        | some expectedBurn =>
          if expectedBurn < hb.1 then .err .excessiveHostBurn
          else
            match revision.missedProofOutputs.get? 2,
                current.missedProofOutputs.get? 2 with
            | some rv2, some cv2 =>
              let vb := subWithUnderflow rv2.value cv2.value
              if vb.2 then .err .voidOutputMustIncrease
              else if vb.1 ≠ hb.1 then .err .burnValueMismatch
              else
                match current.validRenterPayout?,
                    revision.validRenterPayout? with
                | some a, some b =>
                  if a ≠ b then .err .renterValidChanged
                  else
                    match current.validHostPayout?,
                        revision.validHostPayout? with
                    | some c, some d =>
                      if c ≠ d then .err .hostValidChanged
                      else
                        match current.missedRenterPayout?,
                            revision.missedRenterPayout? with
                        | some e2, some f =>
                          if e2 ≠ f then .err .renterMissedChanged
                          else .ok hb.1
                        | _, _ => .crash .indexOutOfRange
                    | _, _ => .crash .indexOutOfRange
                | _, _ => .crash .indexOutOfRange
            | _, _ => .crash .indexOutOfRange
    | _, _ => .crash .indexOutOfRange

/-- `ValidatePaymentRevision(current, revision, payment)`. -/
def ValidatePaymentRevision (uh : UnlockConditions → Nat)
    (current revision : FileContractRevision) (payment : Nat) : Outcome Unit :=
  match validateStdRevision uh current revision with
  | .err e => .err e
  | .crash k => .crash k
  | .ok _ =>
    match revision.validRenterPayout?, current.validRenterPayout? with
    | some rvr, some cvr =>
      match csub cvr payment with
      | none => .crash .currencyUnderflow
      | some cvrSub =>
        if rvr ≠ cvrSub then .err .renterValidNotReduced
        else
          match revision.missedRenterPayout?, current.missedRenterPayout? with
          | some rmr, some cmr =>
            match csub cmr payment with
            | none => .crash .currencyUnderflow
            | some cmrSub =>
              if rmr ≠ cmrSub then .err .renterMissedNotReduced
              else
                match revision.validProofOutputs.get? 1,
                    current.validProofOutputs.get? 1 with
                | some rv1, some cv1 =>
                  match cadd cv1.value payment with
                  | none => .crash .currencyOverflow
                  | some cv1Add =>
                    if rv1.value ≠ cv1Add then .err .hostValidNotIncreased
                    else
                      match revision.missedProofOutputs.get? 1,
                          current.missedProofOutputs.get? 1 with
                      | some rm1, some cm1 =>
                        match cadd cm1.value payment with
                        | none => .crash .currencyOverflow
                        | some cm1Add =>
                          if rm1.value ≠ cm1Add then
                            .err .hostMissedNotIncreased
                          else .ok ()
                      | _, _ => .crash .indexOutOfRange
                | _, _ => .crash .indexOutOfRange
          | _, _ => .crash .indexOutOfRange
    | _, _ => .crash .indexOutOfRange

/-! ### Arithmetic facts about the summation loops -/

/-- The mathematical (unbounded) sum of a list of outputs' values. -/
def sumVals (l : List SiacoinOutput) : Nat :=
  (l.map SiacoinOutput.value).sum

theorem cadd_some {a b s : Nat} (h : cadd a b = some s) :
    s = a + b ∧ a + b < currencyBound := by
  unfold cadd at h
  split at h
  · exact ⟨(Option.some_inj.mp h).symm, by assumption⟩
  · exact Option.noConfusion h

theorem csub_some {a b s : Nat} (h : csub a b = some s) :
    b ≤ a ∧ s = a - b := by
  unfold csub at h
  split at h
  · exact ⟨by assumption, (Option.some_inj.mp h).symm⟩
  · exact Option.noConfusion h

theorem sumCurrentOutputs_eq {l : List SiacoinOutput} {acc s : Nat}
    (h : sumCurrentOutputs l acc = .ok s) : s = acc + sumVals l := by
  induction l generalizing acc with
  | nil =>
    simp only [sumCurrentOutputs, Outcome.ok.injEq] at h
    simp [sumVals, ← h]
  | cons o rest ih =>
    rw [sumCurrentOutputs] at h
    cases hc : cadd acc o.value with
    | none => rw [hc] at h; exact Outcome.noConfusion h
    | some acc2 =>
      rw [hc] at h
      have h2 := ih h
      have hc2 := (cadd_some hc).1
      simp only [sumVals, List.map_cons, List.sum_cons] at h2 ⊢
      omega

theorem sumCurrentOutputs_lt {l : List SiacoinOutput} {acc s : Nat}
    (hacc : acc < currencyBound) (h : sumCurrentOutputs l acc = .ok s) :
    s < currencyBound := by
  induction l generalizing acc with
  | nil =>
    simp only [sumCurrentOutputs, Outcome.ok.injEq] at h
    omega
  | cons o rest ih =>
    rw [sumCurrentOutputs] at h
    cases hc : cadd acc o.value with
    | none => rw [hc] at h; exact Outcome.noConfusion h
    | some acc2 =>
      rw [hc] at h
      obtain ⟨rfl, hlt⟩ := cadd_some hc
      exact ih hlt h

theorem sumCurrentOutputs_complete {l : List SiacoinOutput} {acc : Nat}
    (h : acc + sumVals l < currencyBound) :
    sumCurrentOutputs l acc = .ok (acc + sumVals l) := by
  induction l generalizing acc with
  | nil => simp [sumCurrentOutputs, sumVals]
  | cons o rest ih =>
    rw [sumCurrentOutputs]
    have hb : acc + o.value < currencyBound := by
      simp only [sumVals, List.map_cons, List.sum_cons] at h
      omega
    have hcadd : cadd acc o.value = some (acc + o.value) := by
      unfold cadd
      simp [hb]
    simp only [hcadd]
    have hrec : sumCurrentOutputs rest (acc + o.value) =
        .ok (acc + o.value + sumVals rest) := by
      apply ih
      simp only [sumVals, List.map_cons, List.sum_cons] at h ⊢
      omega
    rw [hrec]
    simp only [sumVals, List.map_cons, List.sum_cons, Outcome.ok.injEq]
    omega

theorem sumRevisionOutputs_eq {b : Bool} {rev cur : List SiacoinOutput}
    {i acc s : Nat} (h : sumRevisionOutputs b rev cur i acc = .ok s) :
    s = acc + sumVals rev ∧
      ∀ j o p, rev.get? j = some o → cur.get? j = some p →
        o.address = p.address := by
  induction rev generalizing cur i acc with
  | nil =>
    simp only [sumRevisionOutputs, Outcome.ok.injEq] at h
    constructor
    · simp [sumVals, ← h]
    · intro j o p ho
      simp at ho
  | cons o rest ih =>
    cases cur with
    | nil =>
      rw [sumRevisionOutputs] at h
      exact Outcome.noConfusion h
    | cons c crest =>
      rw [sumRevisionOutputs] at h
      split at h
      · exact Outcome.noConfusion h
      · rename_i haddr
        cases hc : cadd acc o.value with
        | none => rw [hc] at h; exact Outcome.noConfusion h
        | some acc2 =>
          rw [hc] at h
          obtain ⟨hs, hrest⟩ := ih h
          have hc2 := (cadd_some hc).1
          constructor
          · simp only [sumVals, List.map_cons, List.sum_cons] at hs ⊢
            omega
          · intro j o2 p2 ho2 hp2
            cases j with
            | zero =>
              simp only [List.get?] at ho2 hp2
              obtain rfl := Option.some_inj.mp ho2
              obtain rfl := Option.some_inj.mp hp2
              simpa using haddr
            | succ j2 =>
              exact hrest j2 o2 p2 (by simpa using ho2) (by simpa using hp2)

theorem sumRevisionOutputs_self {b : Bool} {l : List SiacoinOutput}
    {i acc : Nat} (h : acc + sumVals l < currencyBound) :
    sumRevisionOutputs b l l i acc = .ok (acc + sumVals l) := by
  induction l generalizing i acc with
  | nil => simp [sumRevisionOutputs, sumVals]
  | cons o rest ih =>
    rw [sumRevisionOutputs]
    have hb : acc + o.value < currencyBound := by
      simp only [sumVals, List.map_cons, List.sum_cons] at h
      omega
    have hcadd : cadd acc o.value = some (acc + o.value) := by
      unfold cadd
      simp [hb]
    rw [if_neg (by simp)]
    simp only [hcadd]
    have hrec : sumRevisionOutputs b rest rest (i + 1) (acc + o.value) =
        .ok (acc + o.value + sumVals rest) := by
      apply ih
      simp only [sumVals, List.map_cons, List.sum_cons] at h ⊢
      omega
    rw [hrec]
    simp only [sumVals, List.map_cons, List.sum_cons, Outcome.ok.injEq]
    omega

theorem renterChecks_ok {a b c d : Option Nat}
    (h : renterChecks a b c d = .ok ()) :
    ∃ rv cv rm cm, a = some rv ∧ b = some cv ∧ c = some rm ∧ d = some cm ∧
      rv ≤ cv ∧ rm ≤ cm ∧ rv = rm := by
  cases a with
  | none => simp [renterChecks] at h
  | some rv =>
    cases b with
    | none => simp [renterChecks] at h
    | some cv =>
      cases c with
      | none => simp [renterChecks] at h
      | some rm =>
        cases d with
        | none => simp [renterChecks] at h
        | some cm =>
          refine ⟨rv, cv, rm, cm, rfl, rfl, rfl, rfl, ?_⟩
          simp only [renterChecks] at h
          by_cases h1 : cv < rv
          · rw [if_pos h1] at h
            exact Outcome.noConfusion h
          rw [if_neg h1] at h
          by_cases h2 : cm < rm
          · rw [if_pos h2] at h
            exact Outcome.noConfusion h
          rw [if_neg h2] at h
          by_cases h3 : rv ≠ rm
          · rw [if_pos h3] at h
            exact Outcome.noConfusion h
          rw [if_neg h3] at h
          push_neg at h3
          omega

/-- Everything that acceptance by `validateStdRevision` guarantees: the
structural invariants of spec section 3, with the arity invariant in the form
the code actually checks (length equality), plus the fact that the conserved
sums are genuine (non-wrapped) 128-bit sums. -/
def stdInvariants (uh : UnlockConditions → Nat)
    (c r : FileContractRevision) : Prop :=
  sumVals c.validProofOutputs < currencyBound ∧
  sumVals r.validProofOutputs = sumVals c.validProofOutputs ∧
  sumVals r.missedProofOutputs = sumVals c.validProofOutputs ∧
  r.unlockHash = c.unlockHash ∧
  uh r.unlockConditions = uh c.unlockConditions ∧
  c.revisionNumber < r.revisionNumber ∧
  r.windowStart = c.windowStart ∧
  r.windowEnd = c.windowEnd ∧
  r.validProofOutputs.length = c.validProofOutputs.length ∧
  r.missedProofOutputs.length = c.missedProofOutputs.length ∧
  (∀ j o p, r.validProofOutputs.get? j = some o →
    c.validProofOutputs.get? j = some p → o.address = p.address) ∧
  (∀ j o p, r.missedProofOutputs.get? j = some o →
    c.missedProofOutputs.get? j = some p → o.address = p.address) ∧
  ∃ rv cv rm cm, r.validRenterPayout? = some rv ∧
    c.validRenterPayout? = some cv ∧ r.missedRenterPayout? = some rm ∧
    c.missedRenterPayout? = some cm ∧ rv ≤ cv ∧ rm ≤ cm ∧ rv = rm

theorem validateStdRevision_ok_facts {uh : UnlockConditions → Nat}
    {c r : FileContractRevision} (h : validateStdRevision uh c r = .ok ()) :
    stdInvariants uh c r := by
  unfold validateStdRevision at h
  cases h1 : sumCurrentOutputs c.validProofOutputs 0 with
  | err e => rw [h1] at h; exact Outcome.noConfusion h
  | crash k => rw [h1] at h; exact Outcome.noConfusion h
  | ok oldPayout =>
  simp only [h1] at h
  cases h2 : sumRevisionOutputs true r.validProofOutputs
      c.validProofOutputs 0 0 with
  | err e => rw [h2] at h; exact Outcome.noConfusion h
  | crash k => rw [h2] at h; exact Outcome.noConfusion h
  | ok validPayout =>
  simp only [h2] at h
  cases h3 : sumRevisionOutputs false r.missedProofOutputs
      c.missedProofOutputs 0 0 with
  | err e => rw [h3] at h; exact Outcome.noConfusion h
  | crash k => rw [h3] at h; exact Outcome.noConfusion h
  | ok missedPayout =>
  simp only [h3] at h
  by_cases e1 : validPayout ≠ oldPayout
  · rw [if_pos e1] at h; exact Outcome.noConfusion h
  rw [if_neg e1] at h
  by_cases e2 : missedPayout ≠ oldPayout
  · rw [if_pos e2] at h; exact Outcome.noConfusion h
  rw [if_neg e2] at h
  by_cases e3 : r.unlockHash ≠ c.unlockHash
  · rw [if_pos e3] at h; exact Outcome.noConfusion h
  rw [if_neg e3] at h
  by_cases e4 : uh r.unlockConditions ≠ uh c.unlockConditions
  · rw [if_pos e4] at h; exact Outcome.noConfusion h
  rw [if_neg e4] at h
  by_cases e5 : r.revisionNumber ≤ c.revisionNumber
  · rw [if_pos e5] at h; exact Outcome.noConfusion h
  rw [if_neg e5] at h
  by_cases e6 : r.windowStart ≠ c.windowStart
  · rw [if_pos e6] at h; exact Outcome.noConfusion h
  rw [if_neg e6] at h
  by_cases e7 : r.windowEnd ≠ c.windowEnd
  · rw [if_pos e7] at h; exact Outcome.noConfusion h
  rw [if_neg e7] at h
  by_cases e8 : r.validProofOutputs.length ≠ c.validProofOutputs.length
  · rw [if_pos e8] at h; exact Outcome.noConfusion h
  rw [if_neg e8] at h
  by_cases e9 : r.missedProofOutputs.length ≠ c.missedProofOutputs.length
  · rw [if_pos e9] at h; exact Outcome.noConfusion h
  rw [if_neg e9] at h
  have hold := sumCurrentOutputs_eq h1
  have holdlt := sumCurrentOutputs_lt (by unfold currencyBound; positivity) h1
  obtain ⟨hvsum, hvaddr⟩ := sumRevisionOutputs_eq h2
  obtain ⟨hmsum, hmaddr⟩ := sumRevisionOutputs_eq h3
  obtain ⟨rv, cv, rm, cm, hrv, hcv, hrm, hcm, hle1, hle2, heq⟩ :=
    renterChecks_ok h
  push_neg at e1 e2 e3 e4 e5 e6 e7 e8 e9
  exact ⟨by omega, by omega, by omega, e3, e4, by omega, e6, e7, e8, e9,
    hvaddr, hmaddr, rv, cv, rm, cm, hrv, hcv, hrm, hcm, hle1, hle2, heq⟩

theorem ValidatePaymentRevision_ok_std {uh : UnlockConditions → Nat}
    {c r : FileContractRevision} {payment : Nat}
    (h : ValidatePaymentRevision uh c r payment = .ok ()) :
    validateStdRevision uh c r = .ok () := by
  unfold ValidatePaymentRevision at h
  cases hs : validateStdRevision uh c r with
  | ok u => cases u; rfl
  | err e => rw [hs] at h; exact Outcome.noConfusion h
  | crash k => rw [hs] at h; exact Outcome.noConfusion h

theorem ValidateProgramRevision_ok_std {uh : UnlockConditions → Nat}
    {c r : FileContractRevision} {storage collateral b : Nat}
    (h : ValidateProgramRevision uh c r storage collateral = .ok b) :
    validateStdRevision uh c r = .ok () := by
  unfold ValidateProgramRevision at h
  cases hs : validateStdRevision uh c r with
  | ok u => cases u; rfl
  | err e => rw [hs] at h; exact Outcome.noConfusion h
  | crash k => rw [hs] at h; exact Outcome.noConfusion h

theorem ValidateRevision_ok_std {uh : UnlockConditions → Nat}
    {c r : FileContractRevision} {payment collateral : Nat} {t : Nat × Nat}
    (h : ValidateRevision uh c r payment collateral = .ok t) :
    validateStdRevision uh c r = .ok () := by
  unfold ValidateRevision at h
  cases hs : validateStdRevision uh c r with
  | ok u => cases u; rfl
  | err e => rw [hs] at h; exact Outcome.noConfusion h
  | crash k => rw [hs] at h; exact Outcome.noConfusion h

/-! ### Concrete revisions used by the examples below -/

/-- Convenience constructor for concrete example revisions: fixed shell fields,
chosen outputs. -/
def mkRev (rn : Nat) (vs ms : List SiacoinOutput) : FileContractRevision :=
  { parentID := 0
    unlockConditions := { publicKeys := [], signaturesRequired := 2 }
    fileContract :=
      { filesize := 0, fileMerkleRoot := 0, windowStart := 100
        windowEnd := 200, validProofOutputs := vs, missedProofOutputs := ms
        unlockHash := 0, revisionNumber := rn } }

/-- Constant stand-in for the unlock-conditions hash in concrete examples. -/
def constHash : UnlockConditions → Nat := fun _ => 0

/-- Spec scenario 3's current revision. -/
def paymentCur : FileContractRevision :=
  mkRev 1 [⟨0, 100⟩, ⟨1, 50⟩] [⟨0, 100⟩, ⟨1, 50⟩, ⟨2, 0⟩]

/-- Spec scenario 3's proposed payment revision (payment 10). -/
def paymentRev : FileContractRevision :=
  mkRev 2 [⟨0, 90⟩, ⟨1, 60⟩] [⟨0, 90⟩, ⟨1, 60⟩, ⟨2, 0⟩]

/-- A clearing revision of `paymentCur`: two valid and two missed outputs. -/
def clearingFinal : FileContractRevision :=
  mkRev (2 ^ 64 - 1) [⟨0, 100⟩, ⟨1, 50⟩] [⟨0, 100⟩, ⟨1, 50⟩]

/-- A current revision whose valid output values overflow 128 bits when
summed. -/
def overflowCur : FileContractRevision :=
  mkRev 1 [⟨0, 2 ^ 127⟩, ⟨1, 2 ^ 127⟩] [⟨0, 0⟩]

/-- A current revision with empty output vectors. -/
def emptyOutputsCur : FileContractRevision := mkRev 1 [] []

/-- A proposed revision with one valid output (more than `emptyOutputsCur`). -/
def oneValidRev : FileContractRevision := mkRev 2 [⟨0, 5⟩] []

/-- A clearing revision with one valid and one missed output (more than
`emptyOutputsCur`). -/
def clearingOobFinal : FileContractRevision :=
  mkRev (2 ^ 64 - 1) [⟨0, 5⟩] [⟨0, 5⟩]

/-! ### The claims -/

/-- C1 (amended): if `ValidatePaymentRevision`, `ValidateProgramRevision` or
`ValidateRevision` accepts `(C, R)`, then the structural invariants of spec
section 3 hold between `C` and `R` — with invariant (1) in the weaker form the
code enforces, `|R.Valid| = |C.Valid|` and `|R.Missed| = |C.Missed|` (the
arities 2 and 3 themselves are never checked by `validateStdRevision`), and
with `ValidateClearingRevision` excluded (it validates a different shape and
enforces neither the arity pair, nor missed-address immutability, nor a strict
revision-number increase over the current revision).  In particular `R`'s valid
and missed payout sums both equal `C`'s valid payout sum and
`R.RevisionNumber > C.RevisionNumber`. -/
theorem c1_accepted_pairs_satisfy_std_invariants
    (uh : UnlockConditions → Nat) (c r : FileContractRevision)
    (payment collateral storage : Nat)
    (h : ValidatePaymentRevision uh c r payment = .ok () ∨
      (∃ b, ValidateProgramRevision uh c r storage collateral = .ok b) ∨
      (∃ t, ValidateRevision uh c r payment collateral = .ok t)) :
    stdInvariants uh c r := by
  rcases h with h | ⟨b, h⟩ | ⟨t, h⟩
  · exact validateStdRevision_ok_facts (ValidatePaymentRevision_ok_std h)
  · exact validateStdRevision_ok_facts (ValidateProgramRevision_ok_std h)
  · exact validateStdRevision_ok_facts (ValidateRevision_ok_std h)

/-- C1 witness: the spec's scenario 3 payment revision is accepted and the
(amended) invariants hold for it. -/
theorem c1_witness :
    ValidatePaymentRevision constHash paymentCur paymentRev 10 = .ok () ∧
    stdInvariants constHash paymentCur paymentRev :=
  ⟨by decide, c1_accepted_pairs_satisfy_std_invariants constHash paymentCur
    paymentRev 10 0 0 (Or.inl (by decide))⟩

/-- C1 counterexample: `ValidateClearingRevision` accepts a pair whose final
revision has only two missed proof outputs, so the claimed invariant
`|R.Missed| = 3` does not hold for every accepted pair of the four listed
validators. -/
theorem c1_counterexample :
    ValidateClearingRevision constHash paymentCur clearingFinal = .ok () ∧
    clearingFinal.missedProofOutputs.length = 2 := by decide

/-- C2 (amended): the three summations of `validateStdRevision` use checked
addition over the 128-bit currency type and never wrap: any accepted pair has
genuinely equal mathematical sums, all below `2 ^ 128`.  However, an
out-of-range sum makes the checked addition abort the function (a run-time
panic of the currency library), it does not produce a typed error — the
function has no overflow error return. -/
theorem c2_sums_are_exact (uh : UnlockConditions → Nat)
    (c r : FileContractRevision) (h : validateStdRevision uh c r = .ok ()) :
    sumVals c.validProofOutputs < currencyBound ∧
    sumVals r.validProofOutputs = sumVals c.validProofOutputs ∧
    sumVals r.missedProofOutputs = sumVals c.validProofOutputs := by
  obtain ⟨h1, h2, h3, _⟩ := validateStdRevision_ok_facts h
  exact ⟨h1, h2, h3⟩

/-- C2 witness: a concrete accepted pair, with its exact conserved sums. -/
theorem c2_witness :
    validateStdRevision constHash paymentCur paymentRev = .ok () ∧
    (sumVals paymentCur.validProofOutputs < currencyBound ∧
      sumVals paymentRev.validProofOutputs =
        sumVals paymentCur.validProofOutputs ∧
      sumVals paymentRev.missedProofOutputs =
        sumVals paymentCur.validProofOutputs) :=
  ⟨by decide, c2_sums_are_exact constHash paymentCur paymentRev (by decide)⟩

/-- C2 counterexample: on a pair whose current valid output values sum past
`2 ^ 128`, `validateStdRevision` aborts inside the checked addition (the crash
outcome is a distinct constructor from every typed-error outcome), rather than
returning a typed error as the claim states. -/
theorem c2_counterexample :
    validateStdRevision constHash overflowCur paymentRev =
      .crash .currencyOverflow := by decide

/-- C4: on revision pairs in which the proposed (resp. final) revision has more
proof outputs than the current revision, the per-index loops of
`validateStdRevision` and `ValidateClearingRevision` — which run before any
length comparison against the current revision — perform an out-of-range slice
access (a Go run-time panic), instead of returning a typed error.  In the
source: `validateStdRevision`'s loop over `revision.ValidProofOutputs`
(`contracts.go` lines 27–32) reads `current.ValidProofOutputs[i]` at line 28
while the length comparison only happens at line 55, and
`ValidateClearingRevision`'s loop over `final.ValidProofOutputs` reads
`current.ValidProofOutputs[i]` at line 261 although line 248 only compares the
final revision's two vector lengths with each other, never with the current
revision's.  This theorem evaluates both functions at such inputs: the result
is the out-of-range crash outcome, which is a different constructor from every
typed-error outcome, contradicting the claim (and spec section 7's contract
that a validator returns an error or its success tuple, never neither). -/
theorem c4_loops_abort_out_of_range :
    validateStdRevision constHash emptyOutputsCur oneValidRev =
      .crash .indexOutOfRange ∧
    ValidateClearingRevision constHash emptyOutputsCur clearingOobFinal =
      .crash .indexOutOfRange := by decide

/-- C3 (amended): an accepted payment revision is exactly a payment transfer on
the four renter/host outputs — renter valid and missed payouts each decrease by
`payment` (which therefore is at most each of them) and host valid and missed
output values each increase by `payment`.  "No other output value changed"
holds for current revisions of the canonical shape (two valid outputs, three
missed outputs, missed sum equal to valid sum): then the void output value is
also unchanged.  (Without that shape restriction other values can change; see
the counterexample.) -/
theorem c3_payment_exact_transfer (uh : UnlockConditions → Nat)
    (c r : FileContractRevision) (payment : Nat)
    (h : ValidatePaymentRevision uh c r payment = .ok ()) :
    (∃ cvr rvr, c.validRenterPayout? = some cvr ∧
      r.validRenterPayout? = some rvr ∧ payment ≤ cvr ∧
      rvr = cvr - payment) ∧
    (∃ cmr rmr, c.missedRenterPayout? = some cmr ∧
      r.missedRenterPayout? = some rmr ∧ payment ≤ cmr ∧
      rmr = cmr - payment) ∧
    (∃ cv1 rv1, c.validProofOutputs.get? 1 = some cv1 ∧
      r.validProofOutputs.get? 1 = some rv1 ∧
      rv1.value = cv1.value + payment) ∧
    (∃ cm1 rm1, c.missedProofOutputs.get? 1 = some cm1 ∧
      r.missedProofOutputs.get? 1 = some rm1 ∧
      rm1.value = cm1.value + payment) ∧
    (c.validProofOutputs.length = 2 → c.missedProofOutputs.length = 3 →
      sumVals c.missedProofOutputs = sumVals c.validProofOutputs →
      ∃ cm2 rm2, c.missedProofOutputs.get? 2 = some cm2 ∧
        r.missedProofOutputs.get? 2 = some rm2 ∧ rm2.value = cm2.value ∧
        rm2.address = cm2.address) := by
  have hs := ValidatePaymentRevision_ok_std h
  obtain ⟨hbound, hvsum, hmsum, _, _, _, _, _, hvlen, hmlen, hvaddr, hmaddr,
    rv, cv, rm, cm, hrv, hcv, hrm, hcm, hle1, hle2, hrveq⟩ :=
    validateStdRevision_ok_facts hs
  unfold ValidatePaymentRevision at h
  simp only [hs] at h
  simp only [hrv, hcv] at h
  cases hcs : csub cv payment with
  | none => simp only [hcs] at h; exact Outcome.noConfusion h
  | some cvrSub =>
  simp only [hcs] at h
  by_cases hne1 : rv ≠ cvrSub
  · rw [if_pos hne1] at h; exact Outcome.noConfusion h
  rw [if_neg hne1] at h
  push_neg at hne1
  simp only [hrm, hcm] at h
  cases hcs2 : csub cm payment with
  | none => simp only [hcs2] at h; exact Outcome.noConfusion h
  | some cmrSub =>
  simp only [hcs2] at h
  by_cases hne2 : rm ≠ cmrSub
  · rw [if_pos hne2] at h; exact Outcome.noConfusion h
  rw [if_neg hne2] at h
  push_neg at hne2
  cases hrv1 : r.validProofOutputs.get? 1 with
  | none => simp only [hrv1] at h; exact Outcome.noConfusion h
  | some rv1 =>
  simp only [hrv1] at h
  cases hcv1 : c.validProofOutputs.get? 1 with
  | none => simp only [hcv1] at h; exact Outcome.noConfusion h
  | some cv1 =>
  simp only [hcv1] at h
  cases hca : cadd cv1.value payment with
  | none => simp only [hca] at h; exact Outcome.noConfusion h
  | some cv1Add =>
  simp only [hca] at h
  by_cases hne3 : rv1.value ≠ cv1Add
  · rw [if_pos hne3] at h; exact Outcome.noConfusion h
  rw [if_neg hne3] at h
  push_neg at hne3
  cases hrm1 : r.missedProofOutputs.get? 1 with
  | none => simp only [hrm1] at h; exact Outcome.noConfusion h
  | some rm1 =>
  simp only [hrm1] at h
  cases hcm1 : c.missedProofOutputs.get? 1 with
  | none => simp only [hcm1] at h; exact Outcome.noConfusion h
  | some cm1 =>
  simp only [hcm1] at h
  cases hca2 : cadd cm1.value payment with
  | none => simp only [hca2] at h; exact Outcome.noConfusion h
  | some cm1Add =>
  simp only [hca2] at h
  by_cases hne4 : rm1.value ≠ cm1Add
  · rw [if_pos hne4] at h; exact Outcome.noConfusion h
  push_neg at hne4
  obtain ⟨hple1, hsub1⟩ := csub_some hcs
  obtain ⟨hple2, hsub2⟩ := csub_some hcs2
  obtain ⟨hadd1, _⟩ := cadd_some hca
  obtain ⟨hadd2, _⟩ := cadd_some hca2
  refine ⟨⟨cv, rv, hcv, hrv, hple1, by omega⟩,
    ⟨cm, rm, hcm, hrm, hple2, by omega⟩,
    ⟨cv1, rv1, rfl, rfl, by omega⟩,
    ⟨cm1, rm1, rfl, rfl, by omega⟩, ?_⟩
  intro h2v h3m hsumeq
  obtain ⟨b0, b1, b2, hmsL⟩ := List.length_eq_three.mp h3m
  have hr3 : r.missedProofOutputs.length = 3 := by rw [hmlen, h3m]
  obtain ⟨a0, a1, a2, hrsL⟩ := List.length_eq_three.mp hr3
  have hcm0 : cm = b0.value := by
    have hx := hcm
    unfold FileContractRevision.missedRenterPayout?
      FileContract.missedRenterPayout? at hx
    rw [show c.fileContract.missedProofOutputs = [b0, b1, b2] from hmsL] at hx
    simpa using hx.symm
  have hrm0 : rm = a0.value := by
    have hx := hrm
    unfold FileContractRevision.missedRenterPayout?
      FileContract.missedRenterPayout? at hx
    rw [show r.fileContract.missedProofOutputs = [a0, a1, a2] from hrsL] at hx
    simpa using hx.symm
  have hcm1b : cm1 = b1 := by
    have hx := hcm1
    rw [hmsL] at hx
    simpa using hx.symm
  have hrm1a : rm1 = a1 := by
    have hx := hrm1
    rw [hrsL] at hx
    simpa using hx.symm
  have hsums : a0.value + a1.value + a2.value =
      b0.value + b1.value + b2.value := by
    have h1 := hmsum
    rw [hrsL] at h1
    have h2 := hsumeq
    rw [hmsL] at h2
    simp only [sumVals, List.map_cons, List.map_nil, List.sum_cons,
      List.sum_nil] at h1 h2
    omega
  have haddr2 : a2.address = b2.address := by
    refine hmaddr 2 a2 b2 ?_ ?_
    · rw [hrsL]; rfl
    · rw [hmsL]; rfl
  refine ⟨b2, a2, by rw [hmsL]; rfl, by rw [hrsL]; rfl, ?_, haddr2⟩
  have hv1 : a1.value = b1.value + payment := by
    rw [← hrm1a]
    rw [hne4, hadd2, hcm1b]
  omega

/-- A current revision whose own missed sum (160) differs from its valid sum
(150): the void missed output already carries value 10. -/
def skewedCur : FileContractRevision :=
  mkRev 1 [⟨0, 100⟩, ⟨1, 50⟩] [⟨0, 100⟩, ⟨1, 50⟩, ⟨2, 10⟩]

/-- A payment revision of `skewedCur` that zeroes the void missed output. -/
def skewedRev : FileContractRevision :=
  mkRev 2 [⟨0, 90⟩, ⟨1, 60⟩] [⟨0, 90⟩, ⟨1, 60⟩, ⟨2, 0⟩]

/-- C3 counterexample: `ValidatePaymentRevision` accepts a pair in which the
void missed output's value changes from 10 to 0 — not only the four payment
outputs changed, contradicting "no other output value changed". -/
theorem c3_counterexample :
    ValidatePaymentRevision constHash skewedCur skewedRev 10 = .ok () ∧
    skewedCur.missedProofOutputs.get? 2 = some ⟨2, 10⟩ ∧
    skewedRev.missedProofOutputs.get? 2 = some ⟨2, 0⟩ := by decide

/-- C3 witness: the spec's scenario 3 pair instantiates the amended claim. -/
theorem c3_witness :
    ValidatePaymentRevision constHash paymentCur paymentRev 10 = .ok () ∧
    ((∃ cvr rvr, paymentCur.validRenterPayout? = some cvr ∧
      paymentRev.validRenterPayout? = some rvr ∧ 10 ≤ cvr ∧
      rvr = cvr - 10) ∧
    (∃ cmr rmr, paymentCur.missedRenterPayout? = some cmr ∧
      paymentRev.missedRenterPayout? = some rmr ∧ 10 ≤ cmr ∧
      rmr = cmr - 10) ∧
    (∃ cv1 rv1, paymentCur.validProofOutputs.get? 1 = some cv1 ∧
      paymentRev.validProofOutputs.get? 1 = some rv1 ∧
      rv1.value = cv1.value + 10) ∧
    (∃ cm1 rm1, paymentCur.missedProofOutputs.get? 1 = some cm1 ∧
      paymentRev.missedProofOutputs.get? 1 = some rm1 ∧
      rm1.value = cm1.value + 10) ∧
    (paymentCur.validProofOutputs.length = 2 →
      paymentCur.missedProofOutputs.length = 3 →
      sumVals paymentCur.missedProofOutputs =
        sumVals paymentCur.validProofOutputs →
      ∃ cm2 rm2, paymentCur.missedProofOutputs.get? 2 = some cm2 ∧
        paymentRev.missedProofOutputs.get? 2 = some rm2 ∧
        rm2.value = cm2.value ∧ rm2.address = cm2.address)) :=
  ⟨by decide,
    c3_payment_exact_transfer constHash paymentCur paymentRev 10 (by decide)⟩

/-- C6: for an accepted program revision, the valid payouts and the missed
renter payout are unchanged, the missed host payout decreases by exactly the
amount the void output increases by, that common amount is the returned burn,
and it is at most `storage + collateral`. -/
theorem c6_program_revision_frame (uh : UnlockConditions → Nat)
    (c r : FileContractRevision) (storage collateral b : Nat)
    (h : ValidateProgramRevision uh c r storage collateral = .ok b) :
    (∃ x, c.validRenterPayout? = some x ∧ r.validRenterPayout? = some x) ∧
    (∃ x, c.validHostPayout? = some x ∧ r.validHostPayout? = some x) ∧
    (∃ x, c.missedRenterPayout? = some x ∧ r.missedRenterPayout? = some x) ∧
    ∃ cmh rmh cv2 rv2,
      c.missedHostPayout? = some cmh ∧ r.missedHostPayout? = some rmh ∧
      (c.missedProofOutputs.get? 2).map SiacoinOutput.value = some cv2 ∧
      (r.missedProofOutputs.get? 2).map SiacoinOutput.value = some rv2 ∧
      rmh ≤ cmh ∧ cmh - rmh = b ∧ cv2 ≤ rv2 ∧ rv2 - cv2 = b ∧
      b ≤ storage + collateral := by
  have hs := ValidateProgramRevision_ok_std h
  unfold ValidateProgramRevision at h
  simp only [hs] at h
  cases hcmh : c.missedHostPayout? with
  | none => simp only [hcmh] at h; exact Outcome.noConfusion h
  | some cmh =>
  simp only [hcmh] at h
  cases hrmh : r.missedHostPayout? with
  | none => simp only [hrmh] at h; exact Outcome.noConfusion h
  | some rmh =>
  simp only [hrmh, subWithUnderflow] at h
  by_cases hu1 : cmh < rmh
  · rw [if_pos (by simpa using hu1)] at h; exact Outcome.noConfusion h
  rw [if_neg (by simpa using hu1)] at h
  cases hca : cadd storage collateral with
  | none => simp only [hca] at h; exact Outcome.noConfusion h
  | some expectedBurn =>
  simp only [hca] at h
  by_cases hgt : expectedBurn < cmh - rmh
  · rw [if_pos hgt] at h; exact Outcome.noConfusion h
  rw [if_neg hgt] at h
  cases hrv2 : r.missedProofOutputs.get? 2 with
  | none => simp only [hrv2] at h; exact Outcome.noConfusion h
  | some rv2 =>
  simp only [hrv2] at h
  cases hcv2 : c.missedProofOutputs.get? 2 with
  | none => simp only [hcv2] at h; exact Outcome.noConfusion h
  | some cv2 =>
  simp only [hcv2, subWithUnderflow] at h
  by_cases hu2 : rv2.value < cv2.value
  · rw [if_pos (by simpa using hu2)] at h; exact Outcome.noConfusion h
  rw [if_neg (by simpa using hu2)] at h
  by_cases hneq : rv2.value - cv2.value ≠ cmh - rmh
  · rw [if_pos hneq] at h; exact Outcome.noConfusion h
  rw [if_neg hneq] at h
  push_neg at hneq
  cases hcvr : c.validRenterPayout? with
  | none => simp only [hcvr] at h; exact Outcome.noConfusion h
  | some cvr =>
  simp only [hcvr] at h
  cases hrvr : r.validRenterPayout? with
  | none => simp only [hrvr] at h; exact Outcome.noConfusion h
  | some rvr =>
  simp only [hrvr] at h
  by_cases hfr1 : cvr ≠ rvr
  · rw [if_pos hfr1] at h; exact Outcome.noConfusion h
  rw [if_neg hfr1] at h
  push_neg at hfr1
  cases hcvh : c.validHostPayout? with
  | none => simp only [hcvh] at h; exact Outcome.noConfusion h
  | some cvh =>
  simp only [hcvh] at h
  cases hrvh : r.validHostPayout? with
  | none => simp only [hrvh] at h; exact Outcome.noConfusion h
  | some rvh =>
  simp only [hrvh] at h
  by_cases hfr2 : cvh ≠ rvh
  · rw [if_pos hfr2] at h; exact Outcome.noConfusion h
  rw [if_neg hfr2] at h
  push_neg at hfr2
  cases hcmr : c.missedRenterPayout? with
  | none => simp only [hcmr] at h; exact Outcome.noConfusion h
  | some cmr =>
  simp only [hcmr] at h
  cases hrmr : r.missedRenterPayout? with
  | none => simp only [hrmr] at h; exact Outcome.noConfusion h
  | some rmr =>
  simp only [hrmr] at h
  by_cases hfr3 : cmr ≠ rmr
  · rw [if_pos hfr3] at h; exact Outcome.noConfusion h
  rw [if_neg hfr3] at h
  push_neg at hfr3
  have hb : cmh - rmh = b := by
    have := h
    simp only [Outcome.ok.injEq] at this
    exact this
  obtain ⟨hadd, _⟩ := cadd_some hca
  refine ⟨⟨cvr, rfl, by rw [hfr1]⟩, ⟨cvh, rfl, by rw [hfr2]⟩,
    ⟨cmr, rfl, by rw [hfr3]⟩,
    cmh, rmh, cv2.value, rv2.value, rfl, rfl, rfl, rfl,
    by omega, hb, by omega, by omega, by omega⟩

/-- C6 witness: the spec's scenario 5 program revision (burn 5, bound 3+5). -/
theorem c6_witness :
    ValidateProgramRevision constHash paymentCur
      (mkRev 2 [⟨0, 100⟩, ⟨1, 50⟩] [⟨0, 100⟩, ⟨1, 45⟩, ⟨2, 5⟩]) 3 5 =
      .ok 5 ∧
    ((∃ x, paymentCur.validRenterPayout? = some x ∧
      (mkRev 2 [⟨0, 100⟩, ⟨1, 50⟩]
        [⟨0, 100⟩, ⟨1, 45⟩, ⟨2, 5⟩]).validRenterPayout? = some x) ∧
     (∃ x, paymentCur.validHostPayout? = some x ∧
      (mkRev 2 [⟨0, 100⟩, ⟨1, 50⟩]
        [⟨0, 100⟩, ⟨1, 45⟩, ⟨2, 5⟩]).validHostPayout? = some x) ∧
     (∃ x, paymentCur.missedRenterPayout? = some x ∧
      (mkRev 2 [⟨0, 100⟩, ⟨1, 50⟩]
        [⟨0, 100⟩, ⟨1, 45⟩, ⟨2, 5⟩]).missedRenterPayout? = some x) ∧
     ∃ cmh rmh cv2 rv2, paymentCur.missedHostPayout? = some cmh ∧
      (mkRev 2 [⟨0, 100⟩, ⟨1, 50⟩]
        [⟨0, 100⟩, ⟨1, 45⟩, ⟨2, 5⟩]).missedHostPayout? = some rmh ∧
      (paymentCur.missedProofOutputs.get? 2).map SiacoinOutput.value =
        some cv2 ∧
      ((mkRev 2 [⟨0, 100⟩, ⟨1, 50⟩]
        [⟨0, 100⟩, ⟨1, 45⟩, ⟨2, 5⟩]).missedProofOutputs.get? 2).map
        SiacoinOutput.value = some rv2 ∧
      rmh ≤ cmh ∧ cmh - rmh = 5 ∧ cv2 ≤ rv2 ∧ rv2 - cv2 = 5 ∧ 5 ≤ 3 + 5) :=
  ⟨by decide, c6_program_revision_frame constHash paymentCur
    (mkRev 2 [⟨0, 100⟩, ⟨1, 50⟩] [⟨0, 100⟩, ⟨1, 45⟩, ⟨2, 5⟩]) 3 5 5
    (by decide)⟩

theorem clearingOutputsCheck_ok {fv cv fm : List SiacoinOutput}
    (h : clearingOutputsCheck fv cv fm = .ok ()) :
    ∀ j o, fv.get? j = some o →
      (∃ p, cv.get? j = some p ∧ o.value = p.value ∧
        o.address = p.address) ∧
      (∃ q, fm.get? j = some q ∧ o.value = q.value ∧
        o.address = q.address) := by
  induction fv generalizing cv fm with
  | nil =>
    intro j o ho
    simp at ho
  | cons f fs ih =>
    cases cv with
    | nil =>
      rw [clearingOutputsCheck] at h
      exact Outcome.noConfusion h
    | cons cHead cs =>
      cases fm with
      | nil =>
        rw [clearingOutputsCheck] at h
        exact Outcome.noConfusion h
      | cons m ms =>
        rw [clearingOutputsCheck] at h
        by_cases e1 : f.value ≠ cHead.value
        · rw [if_pos e1] at h; exact Outcome.noConfusion h
        rw [if_neg e1] at h
        by_cases e2 : f.address ≠ cHead.address
        · rw [if_pos e2] at h; exact Outcome.noConfusion h
        rw [if_neg e2] at h
        by_cases e3 : f.value ≠ m.value
        · rw [if_pos e3] at h; exact Outcome.noConfusion h
        rw [if_neg e3] at h
        by_cases e4 : f.address ≠ m.address
        · rw [if_pos e4] at h; exact Outcome.noConfusion h
        rw [if_neg e4] at h
        push_neg at e1 e2 e3 e4
        intro j o ho
        cases j with
        | zero =>
          simp only [List.get?] at ho
          obtain rfl := Option.some_inj.mp ho
          exact ⟨⟨cHead, rfl, e1, e2⟩, ⟨m, rfl, e3, e4⟩⟩
        | succ j2 =>
          exact ih h j2 o (by simpa using ho)

/-- C7: an accepted clearing pair has the terminal shape — maximum revision
number, zero filesize and Merkle root, unchanged windows, and for every index
of the final revision's valid vector the valid output equals the current one
(value and address) and the missed output equals the valid output (value and
address). -/
theorem c7_clearing_terminal_shape (uh : UnlockConditions → Nat)
    (c f : FileContractRevision)
    (h : ValidateClearingRevision uh c f = .ok ()) :
    f.revisionNumber = maxRevisionNumber ∧ f.filesize = 0 ∧
    f.fileMerkleRoot = 0 ∧ f.windowStart = c.windowStart ∧
    f.windowEnd = c.windowEnd ∧
    f.validProofOutputs.length = f.missedProofOutputs.length ∧
    ∀ j o, f.validProofOutputs.get? j = some o →
      (∃ p, c.validProofOutputs.get? j = some p ∧ o.value = p.value ∧
        o.address = p.address) ∧
      (∃ q, f.missedProofOutputs.get? j = some q ∧ o.value = q.value ∧
        o.address = q.address) := by
  unfold ValidateClearingRevision at h
  by_cases e1 : f.filesize ≠ 0
  · rw [if_pos e1] at h; exact Outcome.noConfusion h
  rw [if_neg e1] at h
  by_cases e2 : f.fileMerkleRoot ≠ 0
  · rw [if_pos e2] at h; exact Outcome.noConfusion h
  rw [if_neg e2] at h
  by_cases e3 : c.windowStart ≠ f.windowStart
  · rw [if_pos e3] at h; exact Outcome.noConfusion h
  rw [if_neg e3] at h
  by_cases e4 : c.windowEnd ≠ f.windowEnd
  · rw [if_pos e4] at h; exact Outcome.noConfusion h
  rw [if_neg e4] at h
  by_cases e5 : f.validProofOutputs.length ≠ f.missedProofOutputs.length
  · rw [if_pos e5] at h; exact Outcome.noConfusion h
  rw [if_neg e5] at h
  by_cases e6 : f.revisionNumber ≠ maxRevisionNumber
  · rw [if_pos e6] at h; exact Outcome.noConfusion h
  rw [if_neg e6] at h
  by_cases e7 : f.unlockHash ≠ c.unlockHash
  · rw [if_pos e7] at h; exact Outcome.noConfusion h
  rw [if_neg e7] at h
  by_cases e8 : uh f.unlockConditions ≠ uh c.unlockConditions
  · rw [if_pos e8] at h; exact Outcome.noConfusion h
  rw [if_neg e8] at h
  push_neg at e1 e2 e3 e4 e5 e6
  exact ⟨e6, e1, e2, e3.symm, e4.symm, e5, clearingOutputsCheck_ok h⟩

/-- C7 witness: a concrete accepted clearing pair and its terminal shape. -/
theorem c7_witness :
    ValidateClearingRevision constHash paymentCur clearingFinal = .ok () ∧
    (clearingFinal.revisionNumber = maxRevisionNumber ∧
     clearingFinal.filesize = 0 ∧ clearingFinal.fileMerkleRoot = 0 ∧
     clearingFinal.windowStart = paymentCur.windowStart ∧
     clearingFinal.windowEnd = paymentCur.windowEnd ∧
     clearingFinal.validProofOutputs.length =
       clearingFinal.missedProofOutputs.length ∧
     ∀ j o, clearingFinal.validProofOutputs.get? j = some o →
       (∃ p, paymentCur.validProofOutputs.get? j = some p ∧
         o.value = p.value ∧ o.address = p.address) ∧
       (∃ q, clearingFinal.missedProofOutputs.get? j = some q ∧
         o.value = q.value ∧ o.address = q.address)) :=
  ⟨by decide, c7_clearing_terminal_shape constHash paymentCur clearingFinal
    (by decide)⟩

/-- C5: what an accepted renewal returns — `(baseHostRevenue,
riskedCollateral, lockedCollateral)` with `hostBurn = ValidHostPayout −
MissedHostPayout ≤ baseHostRevenue + baseRiskedCollateral`, the burn carried by
the void output, `riskedCollateral = hostBurn − baseHostRevenue` (zero on
underflow) and `lockedCollateral = ValidHostPayout − baseHostRevenue ≤
MaxCollateral`. -/
theorem c5_renewal_outputs (existing : FileContractRevision)
    (renewal : FileContract) (hostKey renterKey : UnlockKey)
    (baseHostRevenue baseRiskedCollateral currentHeight : Nat)
    (settings : HostSettings) (r1 r2 r3 : Nat)
    (h : ValidateContractRenewal existing renewal hostKey renterKey
      baseHostRevenue baseRiskedCollateral currentHeight settings =
      .ok (r1, r2, r3)) :
    r1 = baseHostRevenue ∧
    ∃ vh mh, renewal.validHostPayout? = some vh ∧
      renewal.missedHostPayout? = some mh ∧ mh ≤ vh ∧
      vh - mh ≤ baseHostRevenue + baseRiskedCollateral ∧
      (∃ v2, (renewal.missedProofOutputs.get? 2).map SiacoinOutput.value =
        some v2 ∧ v2 = vh - mh) ∧
      (baseHostRevenue ≤ vh - mh → r2 = vh - mh - baseHostRevenue) ∧
      (vh - mh < baseHostRevenue → r2 = 0) ∧
      baseHostRevenue ≤ vh ∧ r3 = vh - baseHostRevenue ∧
      r3 ≤ settings.maxCollateral := by
  unfold ValidateContractRenewal at h
  by_cases e1 : renewal.revisionNumber ≠ 0
  · rw [if_pos e1] at h; exact Outcome.noConfusion h
  rw [if_neg e1] at h
  by_cases e2 : renewal.filesize ≠ existing.filesize
  · rw [if_pos e2] at h; exact Outcome.noConfusion h
  rw [if_neg e2] at h
  by_cases e3 : renewal.fileMerkleRoot ≠ existing.fileMerkleRoot
  · rw [if_pos e3] at h; exact Outcome.noConfusion h
  rw [if_neg e3] at h
  by_cases e4 : renewal.windowEnd < existing.windowEnd
  · rw [if_pos e4] at h; exact Outcome.noConfusion h
  rw [if_neg e4] at h
  by_cases e5 : renewal.windowStart <
      u64add currentHeight settings.windowSize
  · rw [if_pos e5] at h; exact Outcome.noConfusion h
  rw [if_neg e5] at h
  by_cases e6 : u64add currentHeight settings.maxDuration <
      renewal.windowStart
  · rw [if_pos e6] at h; exact Outcome.noConfusion h
  rw [if_neg e6] at h
  by_cases e7 : renewal.windowEnd <
      u64add renewal.windowStart settings.windowSize
  · rw [if_pos e7] at h; exact Outcome.noConfusion h
  rw [if_neg e7] at h
  by_cases e8 : renewal.validProofOutputs.length ≠ 2
  · rw [if_pos e8] at h; exact Outcome.noConfusion h
  rw [if_neg e8] at h
  by_cases e9 : renewal.missedProofOutputs.length ≠ 3
  · rw [if_pos e9] at h; exact Outcome.noConfusion h
  rw [if_neg e9] at h
  cases hv1 : renewal.validProofOutputs.get? 1 with
  | none => simp only [hv1] at h; exact Outcome.noConfusion h
  | some vho =>
  simp only [hv1] at h
  cases hm1 : renewal.missedProofOutputs.get? 1 with
  | none => simp only [hm1] at h; exact Outcome.noConfusion h
  | some mho =>
  simp only [hm1] at h
  cases hm2 : renewal.missedProofOutputs.get? 2 with
  | none => simp only [hm2] at h; exact Outcome.noConfusion h
  | some voidO =>
  simp only [hm2] at h
  by_cases e10 : vho.address ≠ settings.address
  · rw [if_pos e10] at h; exact Outcome.noConfusion h
  rw [if_neg e10] at h
  by_cases e11 : voidO.address ≠ voidAddress
  · rw [if_pos e11] at h; exact Outcome.noConfusion h
  rw [if_neg e11] at h
  cases hca : cadd baseHostRevenue baseRiskedCollateral with
  | none => simp only [hca] at h; exact Outcome.noConfusion h
  | some expectedBurn =>
  simp only [hca, subWithUnderflow] at h
  by_cases hu1 : vho.value < mho.value
  · rw [if_pos (by simpa using hu1)] at h; exact Outcome.noConfusion h
  rw [if_neg (by simpa using hu1)] at h
  by_cases hgt : expectedBurn < vho.value - mho.value
  · rw [if_pos hgt] at h; exact Outcome.noConfusion h
  rw [if_neg hgt] at h
  by_cases hvv : voidO.value ≠ vho.value - mho.value
  · rw [if_pos hvv] at h; exact Outcome.noConfusion h
  rw [if_neg hvv] at h
  push_neg at hvv
  by_cases hu2 : vho.value < baseHostRevenue
  · rw [if_pos (by simpa using hu2)] at h; exact Outcome.noConfusion h
  rw [if_neg (by simpa using hu2)] at h
  by_cases hmax : settings.maxCollateral < vho.value - baseHostRevenue
  · rw [if_pos hmax] at h; exact Outcome.noConfusion h
  rw [if_neg hmax] at h
  simp only [Outcome.ok.injEq, Prod.mk.injEq] at h
  obtain ⟨hr1, hr2, hr3⟩ := h
  obtain ⟨hadd, _⟩ := cadd_some hca
  refine ⟨hr1.symm, vho.value, mho.value,
    by unfold FileContract.validHostPayout?; rw [hv1]; rfl,
    by unfold FileContract.missedHostPayout?; rw [hm1]; rfl,
    by omega, by omega,
    ⟨voidO.value, rfl, hvv⟩,
    by omega, by omega, by omega, by omega, by omega⟩

/-- An existing revision being renewed in the concrete renewal examples. -/
def renewalExisting : FileContractRevision :=
  mkRev 1 [⟨0, 60⟩, ⟨1, 50⟩] [⟨0, 60⟩, ⟨1, 50⟩, ⟨0, 0⟩]

/-- The host settings used by the concrete formation/renewal examples. -/
def exampleSettings : HostSettings :=
  { address := 1, contractPrice := 10, maxCollateral := 100
    windowSize := 10, maxDuration := 200 }

/-- A renewal contract whose host outputs both use the host's address. -/
def renewalOkContract : FileContract :=
  { filesize := 0, fileMerkleRoot := 0, windowStart := 100, windowEnd := 200
    validProofOutputs := [⟨0, 60⟩, ⟨1, 50⟩]
    missedProofOutputs := [⟨0, 60⟩, ⟨1, 50⟩, ⟨0, 0⟩]
    unlockHash := 0, revisionNumber := 0 }

/-- C5 witness: a concrete accepted renewal (base revenue 5) returning
`(5, 0, 45)`, instantiating the theorem's conclusion. -/
theorem c5_witness :
    ValidateContractRenewal renewalExisting renewalOkContract ⟨7⟩ ⟨8⟩ 5 0 0
      exampleSettings = .ok (5, 0, 45) ∧
    ((5 : Nat) = 5 ∧
    ∃ vh mh, renewalOkContract.validHostPayout? = some vh ∧
      renewalOkContract.missedHostPayout? = some mh ∧ mh ≤ vh ∧
      vh - mh ≤ 5 + 0 ∧
      (∃ v2, (renewalOkContract.missedProofOutputs.get? 2).map
        SiacoinOutput.value = some v2 ∧ v2 = vh - mh) ∧
      (5 ≤ vh - mh → (0 : Nat) = vh - mh - 5) ∧
      (vh - mh < 5 → (0 : Nat) = 0) ∧
      5 ≤ vh ∧ (45 : Nat) = vh - 5 ∧
      (45 : Nat) ≤ exampleSettings.maxCollateral) :=
  ⟨by decide, c5_renewal_outputs renewalExisting renewalOkContract ⟨7⟩ ⟨8⟩
    5 0 0 exampleSettings 5 0 45 (by decide)⟩

/-- C8 (amended): a proposed contract satisfying every formation check of spec
section 4.2 — and whose `uint64` height sums `currentHeight + WindowSize`,
`currentHeight + MaxDuration` and `WindowStart + WindowSize` do not wrap —
is accepted, returning `ValidHostPayout − ContractPrice` (the check
`ContractPrice ≤ ValidHostPayout` makes the subtraction safe).  The no-wrap
bounds are necessary: the code compares against the wrapped `uint64` sums
(`currentHeight+settings.MaxDuration` at `contracts.go` line 149), so near the
top of the `uint64` range it can reject a contract that satisfies all of the
section 4.2 inequalities read over unbounded integers (see the
counterexample). -/
theorem c8_formation_accepts (uh : UnlockConditions → Nat) (fc : FileContract)
    (hostKey renterKey : UnlockKey) (currentHeight : Nat)
    (settings : HostSettings) (vho mho voidO : SiacoinOutput)
    (h1 : fc.filesize = 0) (h2 : fc.revisionNumber = 0)
    (h3 : fc.fileMerkleRoot = 0)
    (hw1 : currentHeight + settings.windowSize < 2 ^ 64)
    (hw2 : currentHeight + settings.maxDuration < 2 ^ 64)
    (hw3 : fc.windowStart + settings.windowSize < 2 ^ 64)
    (h4 : currentHeight + settings.windowSize ≤ fc.windowStart)
    (h5 : fc.windowStart ≤ currentHeight + settings.maxDuration)
    (h6 : fc.windowStart + settings.windowSize ≤ fc.windowEnd)
    (h7 : fc.validProofOutputs.length = 2)
    (h8 : fc.missedProofOutputs.length = 3)
    (h9 : fc.validProofOutputs.get? 1 = some vho)
    (h10 : fc.missedProofOutputs.get? 1 = some mho)
    (h11 : fc.missedProofOutputs.get? 2 = some voidO)
    (h12 : vho.address = settings.address)
    (h13 : mho.address = settings.address)
    (h14 : voidO.address = voidAddress) (h15 : voidO.value = 0)
    (h16 : settings.contractPrice ≤ vho.value)
    (h17 : vho.value = mho.value)
    (h18 : vho.value ≤ settings.maxCollateral)
    (h19 : fc.unlockHash = uh (contractUnlockConditions hostKey renterKey)) :
    ValidateContractFormation uh fc hostKey renterKey currentHeight settings =
      .ok (vho.value - settings.contractPrice) := by
  have hu1 : u64add currentHeight settings.windowSize =
      currentHeight + settings.windowSize := by
    unfold u64add
    omega
  have hu2 : u64add currentHeight settings.maxDuration =
      currentHeight + settings.maxDuration := by
    unfold u64add
    omega
  have hu3 : u64add fc.windowStart settings.windowSize =
      fc.windowStart + settings.windowSize := by
    unfold u64add
    omega
  unfold ValidateContractFormation
  rw [hu1, hu2, hu3]
  rw [if_neg (by simp [h1]), if_neg (by simp [h2]), if_neg (by simp [h3]),
    if_neg (Nat.not_lt.mpr h4), if_neg (Nat.not_lt.mpr h5),
    if_neg (Nat.not_lt.mpr h6), if_neg (by simp [h7]),
    if_neg (by simp [h8])]
  simp only [h9, h10, h11]
  rw [if_neg (by simp [h12]), if_neg (by simp [h13]), if_neg (by simp [h14]),
    if_neg (by simp [h15]), if_neg (Nat.not_lt.mpr h16),
    if_neg (by simp [h17]), if_neg (Nat.not_lt.mpr h18),
    if_neg (by simp [h19])]
  rw [show csub vho.value settings.contractPrice =
      some (vho.value - settings.contractPrice) from by
    unfold csub
    simp [h16]]

/-- The literal formation scenario of spec section 8 (scenario 1). -/
def formationContract : FileContract :=
  { filesize := 0, fileMerkleRoot := 0, windowStart := 100, windowEnd := 200
    validProofOutputs := [⟨0, 60⟩, ⟨1, 50⟩]
    missedProofOutputs := [⟨0, 60⟩, ⟨1, 50⟩, ⟨0, 0⟩]
    unlockHash := 0, revisionNumber := 0 }

/-- A formation contract whose proof window sits at the very top of the
`uint64` range. -/
def wrapFormationContract : FileContract :=
  { filesize := 0, fileMerkleRoot := 0, windowStart := 2 ^ 64 - 1
    windowEnd := 2 ^ 64 - 1
    validProofOutputs := [⟨0, 60⟩, ⟨1, 50⟩]
    missedProofOutputs := [⟨0, 60⟩, ⟨1, 50⟩, ⟨0, 0⟩]
    unlockHash := 0, revisionNumber := 0 }

/-- Host settings with a zero window size, used by the wrap counterexample. -/
def wrapSettings : HostSettings :=
  { address := 1, contractPrice := 10, maxCollateral := 100
    windowSize := 0, maxDuration := 100 }

/-- C8 counterexample: at `currentHeight = 2 ^ 64 − 1` with `WindowSize = 0`,
`MaxDuration = 100` and `WindowStart = WindowEnd = 2 ^ 64 − 1`, every
formation check of spec section 4.2 holds (the conjuncts below enumerate
them: zero filesize, revision number and Merkle root; the three window
inequalities over unbounded integers; arities; host, void addresses and the
zero void value; `ContractPrice ≤ ValidHostPayout = MissedHostPayout ≤
MaxCollateral`; the unlock hash) — yet the code compares `WindowStart`
against the wrapped `uint64` sum `currentHeight + MaxDuration = 99` and
rejects the contract with "contract duration is too long", so the claim is
false as stated. -/
theorem c8_counterexample :
    wrapFormationContract.filesize = 0 ∧
    wrapFormationContract.revisionNumber = 0 ∧
    wrapFormationContract.fileMerkleRoot = 0 ∧
    (2 ^ 64 - 1) + wrapSettings.windowSize ≤
      wrapFormationContract.windowStart ∧
    wrapFormationContract.windowStart ≤
      (2 ^ 64 - 1) + wrapSettings.maxDuration ∧
    wrapFormationContract.windowStart + wrapSettings.windowSize ≤
      wrapFormationContract.windowEnd ∧
    wrapFormationContract.validProofOutputs.length = 2 ∧
    wrapFormationContract.missedProofOutputs.length = 3 ∧
    wrapFormationContract.validProofOutputs.get? 1 =
      some ⟨wrapSettings.address, 50⟩ ∧
    wrapFormationContract.missedProofOutputs.get? 1 =
      some ⟨wrapSettings.address, 50⟩ ∧
    wrapFormationContract.missedProofOutputs.get? 2 =
      some ⟨voidAddress, 0⟩ ∧
    wrapSettings.contractPrice ≤ 50 ∧
    (50 : Nat) ≤ wrapSettings.maxCollateral ∧
    wrapFormationContract.unlockHash =
      constHash (contractUnlockConditions ⟨7⟩ ⟨8⟩) ∧
    ValidateContractFormation constHash wrapFormationContract ⟨7⟩ ⟨8⟩
      (2 ^ 64 - 1) wrapSettings = .err .durationTooLong := by decide

/-- C8 witness: the spec's literal formation scenario is accepted and returns
40 (= 50 − 10). -/
theorem c8_witness :
    ValidateContractFormation constHash formationContract ⟨7⟩ ⟨8⟩ 0
      exampleSettings = .ok 40 := by
  have := c8_formation_accepts constHash formationContract ⟨7⟩ ⟨8⟩ 0
    exampleSettings ⟨1, 50⟩ ⟨1, 50⟩ ⟨0, 0⟩ rfl rfl rfl (by decide) (by decide)
    (by decide) (by decide) (by decide) (by decide) rfl rfl rfl rfl rfl rfl
    rfl rfl rfl (by decide) rfl (by decide) rfl
  exact this

/-- The output-rebuilding of `Revise` is the identity when fed the revision's
own output values. -/
theorem reviseOutputs_self (l : List SiacoinOutput) :
    reviseOutputs l (l.map SiacoinOutput.value) = l := by
  induction l with
  | nil => rfl
  | cons o rest ih =>
    show SiacoinOutput.mk o.address o.value ::
      reviseOutputs rest (rest.map SiacoinOutput.value) = o :: rest
    rw [ih]

/-- A revision whose outputs, unlock data and windows are unchanged and whose
revision number strictly increased passes `validateStdRevision`, provided the
valid-value sum is representable, the missed sum matches it and the renter
(index 0) valid and missed values agree. -/
theorem validateStdRevision_bump {uh : UnlockConditions → Nat}
    {r : FileContractRevision} {n : Nat} (hn : r.revisionNumber < n)
    (hbound : sumVals r.validProofOutputs < currencyBound)
    (hsum : sumVals r.missedProofOutputs = sumVals r.validProofOutputs)
    {v0 m0 : SiacoinOutput}
    (hv0 : r.validProofOutputs.get? 0 = some v0)
    (hm0 : r.missedProofOutputs.get? 0 = some m0)
    (hval : v0.value = m0.value) :
    validateStdRevision uh r
      { r with fileContract :=
        { r.fileContract with revisionNumber := n } } = .ok () := by
  have hbound2 : sumVals r.fileContract.validProofOutputs < currencyBound :=
    hbound
  have hsum2 : sumVals r.fileContract.missedProofOutputs =
      sumVals r.fileContract.validProofOutputs := hsum
  have hn2 : r.fileContract.revisionNumber < n := hn
  have hv0f : r.fileContract.validProofOutputs.get? 0 = some v0 := hv0
  have hm0f : r.fileContract.missedProofOutputs.get? 0 = some m0 := hm0
  unfold validateStdRevision
  dsimp only [FileContractRevision.validProofOutputs,
    FileContractRevision.missedProofOutputs, FileContractRevision.unlockHash,
    FileContractRevision.revisionNumber, FileContractRevision.windowStart,
    FileContractRevision.windowEnd, FileContractRevision.validRenterPayout?,
    FileContractRevision.missedRenterPayout?, FileContract.validRenterPayout?,
    FileContract.missedRenterPayout?]
  simp only [sumCurrentOutputs_complete (show (0 : Nat) +
      sumVals r.fileContract.validProofOutputs < currencyBound by omega),
    sumRevisionOutputs_self (show (0 : Nat) +
      sumVals r.fileContract.validProofOutputs < currencyBound by omega),
    sumRevisionOutputs_self (show (0 : Nat) +
      sumVals r.fileContract.missedProofOutputs < currencyBound by omega),
    Nat.zero_add]
  rw [if_neg (by simp), if_neg (by simp [hsum2]), if_neg (by simp),
    if_neg (by simp), if_neg (Nat.not_le.mpr hn2), if_neg (by simp),
    if_neg (by simp), if_neg (by simp), if_neg (by simp)]
  simp only [hv0f, hm0f, Option.map_some']
  unfold renterChecks
  show (if v0.value < v0.value then Outcome.err VErr.renterValidIncreased
    else if m0.value < m0.value then Outcome.err VErr.renterMissedIncreased
    else if v0.value ≠ m0.value then Outcome.err VErr.renterPayoutsUnequal
    else Outcome.ok ()) = Outcome.ok ()
  rw [if_neg (lt_irrefl v0.value), if_neg (lt_irrefl m0.value),
    if_neg (by simp [hval])]

/-- C9 (amended): for a revision `r` below the maximum revision number whose
valid-value sum is representable, whose missed values sum to the valid values'
sum, and whose renter valid and missed values (index 0) are equal,
`Revise(r, r.RevisionNumber+1, r.Valid.values, r.Missed.values)` succeeds,
keeps every output (address and value) unchanged, and the result passes
`validateStdRevision` against `r`.  (The `% 2 ^ 64` reflects the `uint64`
increment of the revision number.) -/
theorem c9_revise_idempotent (uh : UnlockConditions → Nat)
    (r : FileContractRevision) (v0 m0 : SiacoinOutput)
    (hrn : r.revisionNumber < maxRevisionNumber)
    (hbound : sumVals r.validProofOutputs < currencyBound)
    (hsum : sumVals r.missedProofOutputs = sumVals r.validProofOutputs)
    (hv0 : r.validProofOutputs.get? 0 = some v0)
    (hm0 : r.missedProofOutputs.get? 0 = some m0)
    (hval : v0.value = m0.value) :
    Revise r ((r.revisionNumber + 1) % 2 ^ 64)
        (r.validProofOutputs.map SiacoinOutput.value)
        (r.missedProofOutputs.map SiacoinOutput.value) =
      .ok { r with fileContract :=
        { r.fileContract with revisionNumber := r.revisionNumber + 1 } } ∧
    validateStdRevision uh r
      { r with fileContract :=
        { r.fileContract with revisionNumber := r.revisionNumber + 1 } } =
      .ok () := by
  have hq : (r.revisionNumber + 1) % 2 ^ 64 = r.revisionNumber + 1 := by
    unfold maxRevisionNumber at hrn
    omega
  constructor
  · rw [hq]
    unfold Revise
    dsimp only [FileContractRevision.validProofOutputs,
      FileContractRevision.missedProofOutputs,
      FileContractRevision.revisionNumber]
    rw [if_neg (by simp)]
    rw [if_neg (by omega)]
    rw [reviseOutputs_self, reviseOutputs_self]
  · exact validateStdRevision_bump (by omega) hbound hsum hv0 hm0 hval

/-- C9 witness: the scenario-3 current revision satisfies the amended
hypotheses, and bumping its revision number via `Revise` with its own values
passes the structural predicate. -/
theorem c9_witness :
    paymentCur.revisionNumber < maxRevisionNumber ∧
    sumVals paymentCur.validProofOutputs < currencyBound ∧
    sumVals paymentCur.missedProofOutputs =
      sumVals paymentCur.validProofOutputs ∧
    (Revise paymentCur ((paymentCur.revisionNumber + 1) % 2 ^ 64)
        (paymentCur.validProofOutputs.map SiacoinOutput.value)
        (paymentCur.missedProofOutputs.map SiacoinOutput.value) =
      .ok { paymentCur with fileContract :=
        { paymentCur.fileContract with
            revisionNumber := paymentCur.revisionNumber + 1 } } ∧
    validateStdRevision constHash paymentCur
      { paymentCur with fileContract :=
        { paymentCur.fileContract with
            revisionNumber := paymentCur.revisionNumber + 1 } } = .ok ()) :=
  ⟨by decide, by decide, by decide,
    c9_revise_idempotent constHash paymentCur ⟨0, 100⟩ ⟨0, 100⟩ (by decide)
      (by decide) (by decide) (by decide) (by decide) (by decide)⟩

/-- A revision whose missed values sum to 3 but valid values sum to 2. -/
def unequalSumsRev : FileContractRevision :=
  mkRev 1 [⟨0, 1⟩, ⟨1, 1⟩] [⟨0, 1⟩, ⟨1, 1⟩, ⟨2, 1⟩]

/-- `unequalSumsRev` after `Revise` with its own values and number 2. -/
def unequalSumsRevised : FileContractRevision :=
  mkRev 2 [⟨0, 1⟩, ⟨1, 1⟩] [⟨0, 1⟩, ⟨1, 1⟩, ⟨2, 1⟩]

/-- C9 counterexample: for a revision whose own missed sum differs from its
valid sum, `Revise(r, r.RevisionNumber+1, r.Valid.values, r.Missed.values)`
succeeds but the result fails `validateStdRevision` (missed sum is compared
against the valid sum), so the claim does not hold for every revision. -/
theorem c9_counterexample :
    Revise unequalSumsRev ((unequalSumsRev.revisionNumber + 1) % 2 ^ 64)
        (unequalSumsRev.validProofOutputs.map SiacoinOutput.value)
        (unequalSumsRev.missedProofOutputs.map SiacoinOutput.value) =
      .ok unequalSumsRevised ∧
    validateStdRevision constHash unequalSumsRev unequalSumsRevised =
      .err .missedSumChanged := by decide

/-- A renewal contract whose missed host output (index 1) uses address 2,
different from the host settings address 1. -/
def renewalBadMissedAddr : FileContract :=
  { filesize := 0, fileMerkleRoot := 0, windowStart := 100, windowEnd := 200
    validProofOutputs := [⟨0, 60⟩, ⟨1, 50⟩]
    missedProofOutputs := [⟨0, 60⟩, ⟨2, 50⟩, ⟨0, 0⟩]
    unlockHash := 0, revisionNumber := 0 }

/-- C10: `ValidateContractRenewal` accepts a renewal whose missed host output
address differs from the host settings address — the validator constrains only
the valid output's address (index 1) and the void address (index 2), never the
missed host output's address. -/
theorem c10_renewal_ignores_missed_host_address :
    ValidateContractRenewal renewalExisting renewalBadMissedAddr ⟨7⟩ ⟨8⟩ 0 0 0
      exampleSettings = .ok (0, 0, 50) ∧
    renewalBadMissedAddr.missedProofOutputs.get? 1 = some ⟨2, 50⟩ ∧
    exampleSettings.address ≠ 2 := by decide

end Hostd
